import Mathlib

/-!
# Verification of `src/packages/next/src/server/request/root-params.ts`

A shallow embedding of the root-params resolver of this repository.

Object identity (JS reference identity) is modelled by numeric ids minted
from an allocation counter in the render state.  A JS `Promise<Params>` is
modelled by the `Wrapper` structure: its settlement state plus the own
enumerable properties installed on the promise object.  The `WeakMap`
`CachedParams` is modelled as an association list from the id of the
underlying params object to the cached `Wrapper`; weakness (no ownership)
is irrelevant to the functional claims and is not modelled.

Code of this repository that is not under `src/` (the `utils`,
`dynamic-rendering` and `dynamic-rendering-utils` modules) is modelled
from the spec; each such definition carries a doc comment starting with
`Modelled from the spec:`.
-/

/-- A root parameter value: `string | string[]` in the TypeScript source. -/
inductive PValue
  | s (v : String)
  | arr (vs : List String)
deriving Repr, DecidableEq

/-- A `Params` object: JS object identity (`id`) together with its own
enumerable string-keyed entries, in insertion order. -/
structure ParamsObj where
  id : Nat
  content : List (String × PValue)
deriving Repr, DecidableEq

/-- `FallbackRouteParams` is consulted only through `has`; we model it as the
list of placeholder key names. -/
abbrev FallbackKeys := List String

/-- The fields of `WorkStore` that `root-params.ts` reads. -/
structure WorkStore where
  route : String
  rootParams : ParamsObj
  fallbackRouteParams : Option FallbackKeys
deriving Repr, DecidableEq

/-- The work-unit store variants distinguished by `unstable_rootParams`:
`prerender` (dynamicIO, carries `renderSignal`), `prerender-ppr` (carries
`dynamicTracking`), `prerender-legacy`, and every other type (e.g.
`request`, `cache`), which the `if` chain falls through. -/
inductive WorkUnitStore
  | prerender (renderSignal : Nat)
  | prerenderPPR (dynamicTracking : Nat)
  | prerenderLegacy
  | otherUnit
deriving Repr, DecidableEq

/-- The `PrerenderStore` union accepted by `createPrerenderParams`. -/
inductive PrerenderStore
  | dyn (renderSignal : Nat)
  | ppr (dynamicTracking : Nat)
  | legacy
deriving Repr, DecidableEq

/-- The `PrerenderStorePPR | PrerenderStoreLegacy` union accepted by
`makeErroringRootParams`. -/
inductive PrerenderStorePPRorLegacy
  | ppr (dynamicTracking : Nat)
  | legacy
deriving Repr, DecidableEq

/-- An own property slot installed on the promise object: either a plain
data property (writable, enumerable) or the accessor trap installed by
`makeErroringRootParams` for a fallback key. -/
inductive PropSlot
  | value (v : PValue)
  | trapped
deriving Repr, DecidableEq

/-- Settlement state of the promise underlying a `Wrapper`:
`Promise.resolve(underlyingParams)` or a hanging promise bound to a render
signal with a debug label. -/
inductive WState
  | resolved (p : ParamsObj)
  | hanging (renderSignal : Nat) (label : String)
deriving Repr, DecidableEq

/-- Context captured by the accessor traps of `makeErroringRootParams`:
the work store's route and the ppr/legacy prerender store. -/
structure TrapCtx where
  route : String
  store : PrerenderStorePPRorLegacy
deriving Repr, DecidableEq

/-- The model of a `Promise<Params>` object returned by the builders. -/
structure Wrapper where
  id : Nat
  state : WState
  trapCtx : Option TrapCtx
  props : List (String × PropSlot)
deriving Repr, DecidableEq

/-- The dynamic-access events recorded during a render. -/
inductive REvent
  | track
deriving Repr, DecidableEq

/-- Render-scoped mutable state: the `CachedParams` map (keyed by the
identity of the underlying params object), the allocation counter for
fresh object ids, and the log of recorded dynamic-access events. -/
structure St where
  cache : List (Nat × Wrapper)
  nextId : Nat
  events : List REvent
deriving Repr, DecidableEq

/-- Association-list lookup by decidable key equality (first match). -/
def alookup {κ α : Type} [DecidableEq κ] (k : κ) : List (κ × α) → Option α
  | [] => none
  | (a, b) :: t => if a = k then some b else alookup k t

/-- Divergent outcomes of the resolver: the `InvariantError` throw, a
postpone raised by the suspend primitive, or an interrupt raised by the
abort primitive. -/
inductive Outcome
  | invariantError (msg : String)
  | postponed (route : String) (expression : String) (dynamicTracking : Nat)
  | interrupted (expression : String) (route : String)
deriving Repr, DecidableEq

/-- Modelled from the spec: `suspend(route, label, trackingHandle)` — the
`postponeWithTracking` primitive of `dynamic-rendering` (not under `src/`);
it diverges, tagged with the route, the expression and the tracking handle. -/
def postponeWithTracking (route expression : String) (dynamicTracking : Nat) : Outcome :=
  .postponed route expression dynamicTracking

/-- Modelled from the spec: `abort(label, scope, unit)` — the
`throwToInterruptStaticGeneration` primitive of `dynamic-rendering` (not
under `src/`); it diverges, tagged with the expression and the work store's
route. -/
def throwToInterruptStaticGeneration (expression : String) (ws : WorkStore) : Outcome :=
  .interrupted expression ws.route

/-- Modelled from the spec: `recordDynamicAccess(scope, unit)` — the
`trackDynamicDataInDynamicRender` primitive of `dynamic-rendering` (not
under `src/`); side-effecting, returns normally. -/
def trackDynamicDataInDynamicRender (st : St) : St :=
  { st with events := st.events ++ [.track] }

/-- Modelled from the spec: the reserved well-known member names of
`utils.ts` (not under `src/`) that collide with intrinsic promise /
value-object members and must never be shadowed. -/
def wellKnownProperties : List String :=
  ["hasOwnProperty", "isPrototypeOf", "propertyIsEnumerable", "toLocaleString",
   "toString", "valueOf", "constructor", "then", "catch", "finally", "status",
   "displayName", "toJSON"]

/-- Modelled from the spec: `describeStringPropertyAccess` of `utils.ts`
(not under `src/`) — a human-readable description identifying which
dynamic-data API and which key is being accessed. -/
def describeStringPropertyAccess (expression prop : String) : String :=
  "`" ++ expression ++ "." ++ prop ++ "`"

/-- Modelled from the spec: `makeHangingPromise` of
`dynamic-rendering-utils` (not under `src/`) — a never-settling future
bound to the render's abort signal, tagged with a debug label; it rejects
if and when the signal fires and otherwise never resolves. -/
def makeHangingPromise (renderSignal : Nat) (label : String) (fresh : Nat) : Wrapper :=
  { id := fresh, state := .hanging renderSignal label, trapCtx := none, props := [] }

/-- The property-copy loop of `makeUntrackedRootParams` (source lines
193–200): every key of the underlying params is copied as a plain value
property, except the well-known names, which are skipped. -/
def untrackedProps : List (String × PValue) → List (String × PropSlot)
  | [] => []
  | (k, v) :: t =>
    if k ∈ wellKnownProperties then untrackedProps t
    else (k, .value v) :: untrackedProps t

/-- The property loop of `makeErroringRootParams` (source lines 131–176):
well-known names skipped; fallback keys get the accessor trap; other keys
are copied as plain value properties. -/
def erroringProps (fb : FallbackKeys) : List (String × PValue) → List (String × PropSlot)
  | [] => []
  | (k, v) :: t =>
    if k ∈ wellKnownProperties then erroringProps fb t
    else if k ∈ fb then (k, .trapped) :: erroringProps fb t
    else (k, .value v) :: erroringProps fb t

/-- `makeUntrackedRootParams` (source lines 181–203): consult
`CachedParams`; on a miss, build `Promise.resolve(underlyingParams)`, store
it, copy the non-reserved keys onto it, and return it. -/
def makeUntrackedRootParams (underlyingParams : ParamsObj) (st : St) : Wrapper × St :=
  match alookup underlyingParams.id st.cache with
  | some cachedParams => (cachedParams, st)
  | none =>
    let promise : Wrapper :=
      { id := st.nextId
        state := .resolved underlyingParams
        trapCtx := none
        props := untrackedProps underlyingParams.content }
    (promise,
     { st with cache := (underlyingParams.id, promise) :: st.cache, nextId := st.nextId + 1 })

/-- `makeErroringRootParams` (source lines 114–179): consult `CachedParams`;
on a miss, build `Promise.resolve(underlyingParams)`, store it, then install
accessor traps on fallback keys and plain values on the other non-reserved
keys, and return it. -/
def makeErroringRootParams (underlyingParams : ParamsObj) (fallbackParams : FallbackKeys)
    (ws : WorkStore) (prerenderStore : PrerenderStorePPRorLegacy) (st : St) : Wrapper × St :=
  match alookup underlyingParams.id st.cache with
  | some cachedParams => (cachedParams, st)
  | none =>
    let promise : Wrapper :=
      { id := st.nextId
        state := .resolved underlyingParams
        trapCtx := some ⟨ws.route, prerenderStore⟩
        props := erroringProps fallbackParams underlyingParams.content }
    (promise,
     { st with cache := (underlyingParams.id, promise) :: st.cache, nextId := st.nextId + 1 })

/-- The hanging-future path of `createPrerenderParams` (source lines
82–95): consult `CachedParams`; on a miss, build a hanging promise bound to
the prerender store's render signal, labelled `` `params` ``, store it, and
return it. -/
def cachedHangingParams (underlyingParams : ParamsObj) (renderSignal : Nat) (st : St) :
    Wrapper × St :=
  match alookup underlyingParams.id st.cache with
  | some cachedParams => (cachedParams, st)
  | none =>
    let promise := makeHangingPromise renderSignal "`params`" st.nextId
    (promise,
     { st with cache := (underlyingParams.id, promise) :: st.cache, nextId := st.nextId + 1 })

/-- Whether `for (const key in underlyingParams)` finds some key with
`fallbackParams.has(key)` (source lines 72–78). -/
def hasSomeFallbackParams (underlyingParams : ParamsObj) (fallbackParams : FallbackKeys) : Bool :=
  underlyingParams.content.any fun kv => decide (kv.1 ∈ fallbackParams)

/-- `createPrerenderParams` (source lines 65–112): if the work store has
fallback route params and at least one key of the underlying params is a
fallback param, dispatch on the prerender store type (hanging promise for
dynamicIO, erroring params for ppr/legacy); otherwise build the untracked
params. -/
def createPrerenderParams (underlyingParams : ParamsObj) (ws : WorkStore)
    (prerenderStore : PrerenderStore) (st : St) : Wrapper × St :=
  match ws.fallbackRouteParams with
  | some fallbackParams =>
    if hasSomeFallbackParams underlyingParams fallbackParams then
      match prerenderStore with
      | .dyn renderSignal => cachedHangingParams underlyingParams renderSignal st
      | .ppr dynamicTracking =>
        makeErroringRootParams underlyingParams fallbackParams ws (.ppr dynamicTracking) st
      | .legacy => makeErroringRootParams underlyingParams fallbackParams ws .legacy st
    else makeUntrackedRootParams underlyingParams st
  | none => makeUntrackedRootParams underlyingParams st

/-- `unstable_rootParams` (source lines 25–63).  Divergence (the
`InvariantError` throw, the eager postpone of the ppr branch and the eager
interrupt of the legacy branch) is the `.error` case.  On the normal path
the async function's returned promise resolves to `workStore.rootParams`;
we return that value.  In the dynamicIO-prerender branch the result of
`createPrerenderParams` is discarded by the source (line 38): only its
state effects survive. -/
def unstable_rootParams (workStore : Option WorkStore) (workUnitStore : Option WorkUnitStore)
    (st : St) : Except Outcome ParamsObj × St :=
  match workStore with
  | none => (.error (.invariantError "Missing workStore in unstable_rootParams"), st)
  | some ws =>
    match workUnitStore with
    | some (.prerender renderSignal) =>
      let st1 := (createPrerenderParams ws.rootParams ws (.dyn renderSignal) st).2
      (.ok ws.rootParams, trackDynamicDataInDynamicRender st1)
    | some (.prerenderPPR dynamicTracking) =>
      (.error (postponeWithTracking ws.route "rootParams" dynamicTracking), st)
    | some .prerenderLegacy =>
      (.error (throwToInterruptStaticGeneration "rootParams" ws), st)
    | some .otherUnit => (.ok ws.rootParams, trackDynamicDataInDynamicRender st)
    | none => (.ok ws.rootParams, trackDynamicDataInDynamicRender st)

/-- Result of reading one property of a `Wrapper`: either a value (or
absence) delivered to the reader, or the divergence raised by the accessor
trap's getter. -/
inductive ReadResult
  | value (v : Option PValue)
  | postponed (route : String) (expression : String) (dynamicTracking : Nat)
  | interrupted (expression : String) (route : String)
deriving Repr, DecidableEq

/-- How many suspend/abort primitive invocations a single property read
performs. -/
def invocations : ReadResult → Nat
  | .value _ => 0
  | .postponed _ _ _ => 1
  | .interrupted _ _ => 1

/-- Reading property `k` of a wrapper.  A plain value slot returns its
value; the accessor trap invokes, per the captured prerender store,
`postponeWithTracking` (ppr) or `throwToInterruptStaticGeneration`
(legacy), tagged with `describeStringPropertyAccess 'rootParams' k`
(source lines 137–161). -/
def readProp (w : Wrapper) (k : String) : ReadResult :=
  match alookup k w.props with
  | some (.value v) => .value (some v)
  | some .trapped =>
    match w.trapCtx with
    | some ctx =>
      match ctx.store with
      | .ppr dynamicTracking =>
        .postponed ctx.route (describeStringPropertyAccess "rootParams" k) dynamicTracking
      | .legacy =>
        .interrupted (describeStringPropertyAccess "rootParams" k) ctx.route
    | none => .value none
  | none => .value none

/-- Writing property `k`: the accessor trap's setter redefines the slot as
a plain writable/enumerable data property holding the written value
(source lines 162–168); a plain writable slot is overwritten; an absent
key is created. -/
def setSlot (k : String) (v : PValue) : List (String × PropSlot) → List (String × PropSlot)
  | [] => [(k, .value v)]
  | (a, s) :: t => if a = k then (a, .value v) :: t else (a, s) :: setSlot k v t

/-- Writing property `k` of a wrapper. -/
def writeProp (w : Wrapper) (k : String) (v : PValue) : Wrapper :=
  { w with props := setSlot k v w.props }

/-- An access to one property: a read or a write of a value. -/
inductive PropOp
  | read
  | write (v : PValue)
deriving Repr, DecidableEq

/-- The per-key slot state machine induced by `readProp`/`writeProp`: a
read leaves the slot unchanged (the getter installs nothing); a write
makes the slot a plain value holding the written value. -/
def applySlotOps : PropSlot → List PropOp → PropSlot
  | s, [] => s
  | s, .read :: t => applySlotOps s t
  | _, .write v :: t => applySlotOps (.value v) t

/-- The settled value of a wrapper, when it has one. -/
def awaitedValue (w : Wrapper) : Option ParamsObj :=
  match w.state with
  | .resolved p => some p
  | .hanging _ _ => none

/-- The three builder code paths that consult and populate `CachedParams`:
`makeUntrackedRootParams`, `makeErroringRootParams`, and the hanging-future
path of `createPrerenderParams`. -/
inductive BuilderPath
  | untracked
  | erroring (fb : FallbackKeys) (ws : WorkStore) (ps : PrerenderStorePPRorLegacy)
  | hanging (renderSignal : Nat)
deriving Repr, DecidableEq

/-- Run one builder path on an underlying params object. -/
def runBuilder : BuilderPath → ParamsObj → St → Wrapper × St
  | .untracked, up, st => makeUntrackedRootParams up st
  | .erroring fb ws ps, up, st => makeErroringRootParams up fb ws ps st
  | .hanging renderSignal, up, st => cachedHangingParams up renderSignal st

/-! ## Concrete render fixtures -/

/-- An initial render state: empty cache, empty event log. -/
def emptySt : St := ⟨[], 1, []⟩

/-- A params object whose single key is a fallback (placeholder) key. -/
def dioParams : ParamsObj := ⟨0, [("slug", .s "fallback-value")]⟩

/-- A work store for `dioParams` with `slug` as fallback route param. -/
def dioWs : WorkStore := ⟨"/[slug]", dioParams, some ["slug"]⟩

/-- The hanging wrapper the dynamicIO-prerender path builds for `dioParams`
(render signal 5, fresh id 1). -/
def dioHang : Wrapper := ⟨1, .hanging 5 "`params`", none, []⟩

/-- The render state after resolving `dioParams` under the dynamicIO
prerender started from `emptySt`. -/
def dioStAfter : St := ⟨[(0, dioHang)], 2, [.track]⟩

/-- The spec's fully-known example params `{lang:"en", locale:"us"}`. -/
def knownParams : ParamsObj := ⟨10, [("lang", .s "en"), ("locale", .s "us")]⟩

/-- A work store for `knownParams` with an empty set of fallback params. -/
def knownWs : WorkStore := ⟨"/[lang]/[locale]", knownParams, some []⟩

/-- Params with one concrete key (`lang`) and one fallback key (`slug`). -/
def mixedParams : ParamsObj := ⟨20, [("lang", .s "en"), ("slug", .s "placeholder")]⟩

/-- A work store for `mixedParams` with `slug` as fallback route param. -/
def mixedWs : WorkStore := ⟨"/[lang]/[slug]", mixedParams, some ["slug"]⟩

/-- The erroring wrapper built for `mixedParams` under a ppr prerender. -/
def errW : Wrapper := (makeErroringRootParams mixedParams ["slug"] mixedWs (.ppr 3) emptySt).1

/-- Params for a plain dynamic request (no fallback params). -/
def reqParams : ParamsObj := ⟨30, [("lang", .s "en")]⟩

/-- A work store for `reqParams` without fallback route params. -/
def reqWs : WorkStore := ⟨"/[lang]", reqParams, none⟩

/-- A work store used to exercise the ppr-prerender branch of the resolver. -/
def pprWs : WorkStore := ⟨"/ppr", ⟨40, []⟩, none⟩

/-! ## Helper lemmas -/

theorem alookup_cons {κ α : Type} [DecidableEq κ] (a : κ) (b : α) (t : List (κ × α)) (k : κ) :
    alookup k ((a, b) :: t) = if a = k then some b else alookup k t := rfl

theorem makeUntrackedRootParams_lookup (up : ParamsObj) (st : St) :
    alookup up.id ((makeUntrackedRootParams up st).2).cache =
      some (makeUntrackedRootParams up st).1 := by
  unfold makeUntrackedRootParams
  cases h : alookup up.id st.cache with
  | some w => simp [h]
  | none => simp [alookup]

theorem makeErroringRootParams_lookup (up : ParamsObj) (fb : FallbackKeys) (ws : WorkStore)
    (ps : PrerenderStorePPRorLegacy) (st : St) :
    alookup up.id ((makeErroringRootParams up fb ws ps st).2).cache =
      some (makeErroringRootParams up fb ws ps st).1 := by
  unfold makeErroringRootParams
  cases h : alookup up.id st.cache with
  | some w => simp [h]
  | none => simp [alookup]

theorem cachedHangingParams_lookup (up : ParamsObj) (renderSignal : Nat) (st : St) :
    alookup up.id ((cachedHangingParams up renderSignal st).2).cache =
      some (cachedHangingParams up renderSignal st).1 := by
  unfold cachedHangingParams
  cases h : alookup up.id st.cache with
  | some w => simp [h]
  | none => simp [alookup]

theorem runBuilder_lookup (b : BuilderPath) (up : ParamsObj) (st : St) :
    alookup up.id ((runBuilder b up st).2).cache = some (runBuilder b up st).1 := by
  cases b with
  | untracked => exact makeUntrackedRootParams_lookup up st
  | erroring fb ws ps => exact makeErroringRootParams_lookup up fb ws ps st
  | hanging renderSignal => exact cachedHangingParams_lookup up renderSignal st

theorem runBuilder_hit (b : BuilderPath) (up : ParamsObj) (st : St) (w : Wrapper)
    (h : alookup up.id st.cache = some w) : runBuilder b up st = (w, st) := by
  cases b with
  | untracked => simp only [runBuilder]; unfold makeUntrackedRootParams; rw [h]
  | erroring fb ws ps => simp only [runBuilder]; unfold makeErroringRootParams; rw [h]
  | hanging renderSignal => simp only [runBuilder]; unfold cachedHangingParams; rw [h]

theorem runBuilder_events (b : BuilderPath) (up : ParamsObj) (st : St) :
    ((runBuilder b up st).2).events = st.events := by
  cases b with
  | untracked =>
    unfold runBuilder makeUntrackedRootParams
    cases h : alookup up.id st.cache <;> simp [h]
  | erroring fb ws ps =>
    unfold runBuilder makeErroringRootParams
    cases h : alookup up.id st.cache <;> simp [h]
  | hanging renderSignal =>
    unfold runBuilder cachedHangingParams
    cases h : alookup up.id st.cache <;> simp [h]

theorem createPrerenderParams_events (up : ParamsObj) (ws : WorkStore) (ps : PrerenderStore)
    (st : St) : ((createPrerenderParams up ws ps st).2).events = st.events := by
  unfold createPrerenderParams
  cases hf : ws.fallbackRouteParams with
  | none => exact runBuilder_events .untracked up st
  | some fb =>
    by_cases hs : hasSomeFallbackParams up fb
    · simp only [hs, if_true]
      cases ps with
      | dyn renderSignal => exact runBuilder_events (.hanging renderSignal) up st
      | ppr dynamicTracking => exact runBuilder_events (.erroring fb ws (.ppr dynamicTracking)) up st
      | legacy => exact runBuilder_events (.erroring fb ws .legacy) up st
    · simp only [eq_false hs, if_false]
      exact runBuilder_events .untracked up st

theorem unstable_rootParams_ok (ws : WorkStore) (wu : Option WorkUnitStore) (st : St)
    (p : ParamsObj) (st' : St)
    (h : unstable_rootParams (some ws) wu st = (.ok p, st')) : p = ws.rootParams := by
  cases wu with
  | none =>
    simp only [unstable_rootParams, Prod.mk.injEq] at h
    exact (Except.ok.inj h.1).symm
  | some u =>
    cases u with
    | prerender renderSignal =>
      simp only [unstable_rootParams, Prod.mk.injEq] at h
      exact (Except.ok.inj h.1).symm
    | prerenderPPR dynamicTracking => simp [unstable_rootParams] at h
    | prerenderLegacy => simp [unstable_rootParams] at h
    | otherUnit =>
      simp only [unstable_rootParams, Prod.mk.injEq] at h
      exact (Except.ok.inj h.1).symm

theorem alookup_untrackedProps_wellKnown (c : List (String × PValue)) (k : String)
    (hk : k ∈ wellKnownProperties) : alookup k (untrackedProps c) = none := by
  induction c with
  | nil => rfl
  | cons kv t ih =>
    obtain ⟨a, v⟩ := kv
    by_cases ha : a ∈ wellKnownProperties
    · simp only [untrackedProps, ha, if_true]; exact ih
    · have hak : a ≠ k := fun e => ha (e ▸ hk)
      simp only [untrackedProps, ha, if_false, alookup_cons, hak]
      exact ih

theorem alookup_erroringProps_wellKnown (fb : FallbackKeys) (c : List (String × PValue))
    (k : String) (hk : k ∈ wellKnownProperties) : alookup k (erroringProps fb c) = none := by
  induction c with
  | nil => rfl
  | cons kv t ih =>
    obtain ⟨a, v⟩ := kv
    by_cases ha : a ∈ wellKnownProperties
    · simp only [erroringProps, ha, if_true]; exact ih
    · have hak : a ≠ k := fun e => ha (e ▸ hk)
      by_cases hf : a ∈ fb <;>
        simp only [erroringProps, ha, if_false, hf, if_true, alookup_cons, hak] <;> exact ih

theorem alookup_untrackedProps (c : List (String × PValue)) (k : String) (v : PValue)
    (hnd : (c.map Prod.fst).Nodup) (hk : k ∉ wellKnownProperties) (hm : (k, v) ∈ c) :
    alookup k (untrackedProps c) = some (.value v) := by
  induction c with
  | nil => cases hm
  | cons kv t ih =>
    obtain ⟨a, w⟩ := kv
    simp only [List.map_cons, List.nodup_cons] at hnd
    rcases List.mem_cons.1 hm with heq | hmt
    · obtain ⟨rfl, rfl⟩ := Prod.mk.injEq .. ▸ heq
      simp [untrackedProps, hk, alookup_cons]
    · have hak : a ≠ k := by
        intro e
        exact hnd.1 (e ▸ (List.mem_map.2 ⟨(k, v), hmt, rfl⟩))
      by_cases ha : a ∈ wellKnownProperties
      · simp only [untrackedProps, ha, if_true]; exact ih hnd.2 hmt
      · simp only [untrackedProps, ha, if_false, alookup_cons, hak, if_false]
        exact ih hnd.2 hmt

theorem alookup_erroringProps_fallback (fb : FallbackKeys) (c : List (String × PValue))
    (k : String) (v : PValue) (hnd : (c.map Prod.fst).Nodup) (hk : k ∉ wellKnownProperties)
    (hf : k ∈ fb) (hm : (k, v) ∈ c) :
    alookup k (erroringProps fb c) = some .trapped := by
  induction c with
  | nil => cases hm
  | cons kv t ih =>
    obtain ⟨a, w⟩ := kv
    simp only [List.map_cons, List.nodup_cons] at hnd
    rcases List.mem_cons.1 hm with heq | hmt
    · obtain ⟨rfl, rfl⟩ := Prod.mk.injEq .. ▸ heq
      simp only [erroringProps, hk, if_false, hf, if_true, alookup_cons, if_pos rfl]
    · have hak : a ≠ k := by
        intro e
        exact hnd.1 (e ▸ (List.mem_map.2 ⟨(k, v), hmt, rfl⟩))
      by_cases ha : a ∈ wellKnownProperties
      · simp only [erroringProps, ha, if_true]; exact ih hnd.2 hmt
      · by_cases haf : a ∈ fb <;>
          simp only [erroringProps, ha, if_false, haf, if_true, alookup_cons, hak,
            if_false] <;> exact ih hnd.2 hmt

theorem alookup_erroringProps_plain (fb : FallbackKeys) (c : List (String × PValue))
    (k : String) (v : PValue) (hnd : (c.map Prod.fst).Nodup) (hk : k ∉ wellKnownProperties)
    (hf : k ∉ fb) (hm : (k, v) ∈ c) :
    alookup k (erroringProps fb c) = some (.value v) := by
  induction c with
  | nil => cases hm
  | cons kv t ih =>
    obtain ⟨a, w⟩ := kv
    simp only [List.map_cons, List.nodup_cons] at hnd
    rcases List.mem_cons.1 hm with heq | hmt
    · obtain ⟨rfl, rfl⟩ := Prod.mk.injEq .. ▸ heq
      simp [erroringProps, hk, hf, alookup_cons]
    · have hak : a ≠ k := by
        intro e
        exact hnd.1 (e ▸ (List.mem_map.2 ⟨(k, v), hmt, rfl⟩))
      by_cases ha : a ∈ wellKnownProperties
      · simp only [erroringProps, ha, if_true]; exact ih hnd.2 hmt
      · by_cases haf : a ∈ fb <;>
          simp only [erroringProps, ha, if_false, haf, if_true, alookup_cons, hak,
            if_false] <;> exact ih hnd.2 hmt

theorem invocations_readProp_of_trapCtx_none (w : Wrapper) (k : String)
    (h : w.trapCtx = none) : invocations (readProp w k) = 0 := by
  unfold readProp
  cases hs : alookup k w.props with
  | none => rfl
  | some s =>
    cases s with
    | value v => rfl
    | trapped => rw [h]; rfl

theorem alookup_setSlot_self (k : String) (v : PValue) (l : List (String × PropSlot)) :
    alookup k (setSlot k v l) = some (.value v) := by
  induction l with
  | nil => simp [setSlot, alookup]
  | cons p t ih =>
    obtain ⟨a, s⟩ := p
    by_cases h : a = k
    · simp [setSlot, h, alookup]
    · simp only [setSlot, h, if_false, alookup_cons, ih]

theorem applySlotOps_value (v : PValue) (ops : List PropOp) :
    ∃ u, applySlotOps (.value v) ops = .value u := by
  induction ops generalizing v with
  | nil => exact ⟨v, rfl⟩
  | cons op t ih =>
    cases op with
    | read => exact ih v
    | write u => exact ih u

theorem applySlotOps_reads (s : PropSlot) (ops : List PropOp)
    (h : ∀ op ∈ ops, op = .read) : applySlotOps s ops = s := by
  induction ops with
  | nil => rfl
  | cons op t ih =>
    have : op = .read := h op (List.mem_cons_self op t)
    subst this
    exact ih fun o ho => h o (List.mem_cons_of_mem _ ho)

/-! ## Claim theorems -/

/-- C6: calling the resolver without an active work scope fails with the
`InvariantError` (programmer-error class), surfaced immediately with the
state untouched; with an active work scope that error branch is
unreachable: no invariant error is ever produced. -/
theorem c6_missing_render_scope :
    (∀ (wu : Option WorkUnitStore) (st : St),
      unstable_rootParams none wu st =
        (.error (.invariantError "Missing workStore in unstable_rootParams"), st)) ∧
    (∀ (ws : WorkStore) (wu : Option WorkUnitStore) (st : St) (msg : String),
      (unstable_rootParams (some ws) wu st).1 ≠ .error (.invariantError msg)) := by
  constructor
  · intro wu st; rfl
  · intro ws wu st msg
    cases wu with
    | none => simp [unstable_rootParams]
    | some u =>
      cases u <;>
        simp [unstable_rootParams, postponeWithTracking, throwToInterruptStaticGeneration]

/-- C4: under pprPrerender the resolver eagerly diverges through the
suspend primitive tagged with the API name `rootParams` and the work
store's route (and the tracking handle), before returning and before any
event is recorded; under legacyPrerender it eagerly diverges through the
abort primitive tagged with the API name and the route. -/
theorem c4_eager_mode_dispatch :
    ∀ (ws : WorkStore) (st : St) (dynamicTracking : Nat),
      unstable_rootParams (some ws) (some (.prerenderPPR dynamicTracking)) st =
        (.error (.postponed ws.route "rootParams" dynamicTracking), st) ∧
      unstable_rootParams (some ws) (some .prerenderLegacy) st =
        (.error (.interrupted "rootParams" ws.route), st) :=
  fun _ _ _ => ⟨rfl, rfl⟩

/-- C3: whenever `unstable_rootParams` returns rather than diverging, the
promise it returns resolves to the work store's underlying `rootParams`
object itself — in every such mode, including the dynamicIO prerender,
where the wrapper constructed by `createPrerenderParams` is discarded
(source line 38) and is not the value delivered to the caller. -/
theorem c3_resolver_returns_underlying :
    ∀ (ws : WorkStore) (wu : Option WorkUnitStore) (st : St) (p : ParamsObj) (st' : St),
      unstable_rootParams (some ws) wu st = (.ok p, st') → p = ws.rootParams :=
  fun ws wu st p st' h => unstable_rootParams_ok ws wu st p st' h

/-- Witness for C3 at the dynamicIO-prerender input: the hypothesis holds
at `dioWs`/`dioParams` and the delivered value is the underlying params. -/
theorem c3_resolver_returns_underlying_witness :
    unstable_rootParams (some dioWs) (some (.prerender 5)) emptySt =
      (.ok dioParams, dioStAfter) ∧ dioParams = dioWs.rootParams :=
  ⟨by rfl,
   c3_resolver_returns_underlying dioWs (some (.prerender 5)) emptySt dioParams dioStAfter
     (by rfl)⟩

/-- C2 (code bug evidence): at the failing input — a params object whose
`slug` key is a fallback param, resolved under the dynamicIO prerender —
the resolver builds and caches the hanging future labelled `` `params` ``
bound to render signal 5, but returns a promise that resolves immediately
to the underlying params object, on which the placeholder key reads as a
concrete value; the hanging future is not what the caller receives. -/
theorem c2_hanging_future_discarded :
    unstable_rootParams (some dioWs) (some (.prerender 5)) emptySt =
      (.ok dioParams, dioStAfter) ∧
    alookup dioParams.id dioStAfter.cache = some dioHang ∧
    dioHang.state = .hanging 5 "`params`" ∧
    alookup "slug" dioParams.content = some (.s "fallback-value") :=
  ⟨by rfl, by rfl, rfl, by rfl⟩

/-- C1: identity stability — (i) two resolver calls within the same render
that both return deliver the identical underlying params object; (ii) a
params object resolved once via any builder path (untracked, erroring, or
hanging-future) yields the identical wrapper, with no further cache store,
when resolved again via any (possibly different) builder path; (iii) a
builder invoked while the cache already holds a wrapper for the params
object returns that wrapper and performs no store at all. -/
theorem c1_identity_stability :
    (∀ (ws : WorkStore) (wu : Option WorkUnitStore) (st st1 st2 : St) (p1 p2 : ParamsObj),
        unstable_rootParams (some ws) wu st = (.ok p1, st1) →
        unstable_rootParams (some ws) wu st1 = (.ok p2, st2) → p1 = p2) ∧
    (∀ (b1 b2 : BuilderPath) (up : ParamsObj) (st : St),
        runBuilder b2 up (runBuilder b1 up st).2 =
          ((runBuilder b1 up st).1, (runBuilder b1 up st).2)) ∧
    (∀ (b : BuilderPath) (up : ParamsObj) (st : St) (w : Wrapper),
        alookup up.id st.cache = some w → runBuilder b up st = (w, st)) := by
  refine ⟨?_, ?_, ?_⟩
  · intro ws wu st st1 st2 p1 p2 h1 h2
    rw [unstable_rootParams_ok ws wu st p1 st1 h1, unstable_rootParams_ok ws wu st1 p2 st2 h2]
  · intro b1 b2 up st
    exact runBuilder_hit b2 up _ _ (runBuilder_lookup b1 up st)
  · intro b up st w h
    exact runBuilder_hit b up st w h

/-- Witness for C1: two dynamic-request resolutions of `reqParams` deliver
the identical object, and the untracked-then-erroring builder sequence on
`reqParams` returns the very wrapper built first, with no state change. -/
theorem c1_identity_stability_witness :
    unstable_rootParams (some reqWs) (some .otherUnit) emptySt =
      (.ok reqParams, ⟨[], 1, [.track]⟩) ∧
    unstable_rootParams (some reqWs) (some .otherUnit) ⟨[], 1, [.track]⟩ =
      (.ok reqParams, ⟨[], 1, [.track, .track]⟩) ∧
    reqParams = reqParams ∧
    runBuilder (.erroring ["lang"] reqWs .legacy) reqParams
        (runBuilder .untracked reqParams emptySt).2 =
      ((runBuilder .untracked reqParams emptySt).1,
       (runBuilder .untracked reqParams emptySt).2) :=
  ⟨by rfl, by rfl,
   c1_identity_stability.1 reqWs (some .otherUnit) emptySt ⟨[], 1, [.track]⟩
     ⟨[], 1, [.track, .track]⟩ reqParams reqParams (by rfl) (by rfl),
   c1_identity_stability.2.1 .untracked (.erroring ["lang"] reqWs .legacy) reqParams emptySt⟩

/-- C9 counterexample: under pprPrerender the dispatch diverges through the
suspend primitive and the dynamic-access recording call (source line 60) is
never reached: the resolver leaves the state — in particular the event
log — exactly as it was, so no dynamic-access event is recorded in this
branch, contradicting the claim that recording happens in every branch
independently of whether dispatch suspended or aborted. -/
theorem c9_no_event_when_dispatch_diverges :
    unstable_rootParams (some pprWs) (some (.prerenderPPR 0)) ⟨[], 0, []⟩ =
      (.error (.postponed "/ppr" "rootParams" 0), ⟨[], 0, []⟩) ∧
    (⟨[], 0, []⟩ : St).events = [] :=
  ⟨by rfl, rfl⟩

/-- C9 amended: the dynamic-access recording call sits after the dispatch
block and runs in exactly the branches where dispatch returns normally
(dynamicIO prerender, non-prerender render unit, no render unit), appending
one event; in the branches where dispatch diverges (pprPrerender suspend,
legacyPrerender abort) it is not reached and the event log is unchanged. -/
theorem c9_track_only_on_normal_dispatch :
    ∀ (ws : WorkStore) (st : St) (renderSignal dynamicTracking : Nat),
      ((unstable_rootParams (some ws) (some (.prerender renderSignal)) st).2).events =
        st.events ++ [.track] ∧
      ((unstable_rootParams (some ws) (some .otherUnit) st).2).events =
        st.events ++ [.track] ∧
      ((unstable_rootParams (some ws) none st).2).events = st.events ++ [.track] ∧
      ((unstable_rootParams (some ws) (some (.prerenderPPR dynamicTracking)) st).2).events =
        st.events ∧
      ((unstable_rootParams (some ws) (some .prerenderLegacy) st).2).events = st.events := by
  intro ws st renderSignal dynamicTracking
  refine ⟨?_, rfl, rfl, rfl, rfl⟩
  simp only [unstable_rootParams]
  simp [trackDynamicDataInDynamicRender, createPrerenderParams_events]

/-- C5: fully-known fast path — when the work store has no fallback route
params, or none of the params object's keys is a fallback param,
`createPrerenderParams` (first resolution) yields an already-resolved
wrapper whose whole-mapping read is exactly the underlying params (hence
its key/value pairs), any property read performs zero suspend/abort
invocations, and no event is recorded. -/
theorem c5_fully_known_fast_path :
    ∀ (up : ParamsObj) (ws : WorkStore) (ps : PrerenderStore) (st : St) (k : String),
      alookup up.id st.cache = none →
      (∀ fb, ws.fallbackRouteParams = some fb → hasSomeFallbackParams up fb = false) →
      awaitedValue (createPrerenderParams up ws ps st).1 = some up ∧
      invocations (readProp (createPrerenderParams up ws ps st).1 k) = 0 ∧
      ((createPrerenderParams up ws ps st).2).events = st.events := by
  intro up ws ps st k hmiss hnf
  have hred : createPrerenderParams up ws ps st = makeUntrackedRootParams up st := by
    unfold createPrerenderParams
    cases hf : ws.fallbackRouteParams with
    | none => rfl
    | some fb => simp [hnf fb hf]
  rw [hred]
  unfold makeUntrackedRootParams
  rw [hmiss]
  exact ⟨rfl, invocations_readProp_of_trapCtx_none _ k rfl, rfl⟩

/-- Witness for C5 at the spec's example `{lang:"en", locale:"us"}` with an
empty placeholder set: the wrapper's whole-mapping read equals the pairs
and reading `lang` performs no suspend/abort invocation. -/
theorem c5_fully_known_fast_path_witness :
    hasSomeFallbackParams knownParams [] = false ∧
    (awaitedValue (createPrerenderParams knownParams knownWs (.dyn 9) emptySt).1 =
       some knownParams ∧
     invocations (readProp (createPrerenderParams knownParams knownWs (.dyn 9) emptySt).1
       "lang") = 0 ∧
     ((createPrerenderParams knownParams knownWs (.dyn 9) emptySt).2).events = []) ∧
    knownParams.content = [("lang", .s "en"), ("locale", .s "us")] :=
  ⟨by decide,
   c5_fully_known_fast_path knownParams knownWs (.dyn 9) emptySt "lang" (by rfl)
     (fun fb hfb => by
       simp only [knownWs] at hfb
       cases hfb
       decide),
   by rfl⟩

/-- C7: per-property trap on the erroring wrapper — on the wrapper built by
`makeErroringRootParams` (first resolution) for a params object with unique
keys, reading a present placeholder (fallback) key performs exactly one
suspend invocation (ppr prerender store) or abort invocation (legacy),
tagged with the description of the specific property path accessed, and
never yields a value; reading a present non-placeholder key performs zero
such invocations and yields its copied value. -/
theorem c7_per_property_trap :
    ∀ (up : ParamsObj) (fb : FallbackKeys) (ws : WorkStore) (ps : PrerenderStorePPRorLegacy)
      (st : St) (k : String) (v : PValue),
      alookup up.id st.cache = none →
      (up.content.map Prod.fst).Nodup →
      (k, v) ∈ up.content →
      k ∉ wellKnownProperties →
      (k ∈ fb →
        readProp (makeErroringRootParams up fb ws ps st).1 k =
          (match ps with
           | .ppr dynamicTracking =>
             .postponed ws.route (describeStringPropertyAccess "rootParams" k) dynamicTracking
           | .legacy => .interrupted (describeStringPropertyAccess "rootParams" k) ws.route) ∧
        invocations (readProp (makeErroringRootParams up fb ws ps st).1 k) = 1 ∧
        ∀ x, readProp (makeErroringRootParams up fb ws ps st).1 k ≠ .value x) ∧
      (k ∉ fb →
        readProp (makeErroringRootParams up fb ws ps st).1 k = .value (some v) ∧
        invocations (readProp (makeErroringRootParams up fb ws ps st).1 k) = 0) := by
  intro up fb ws ps st k v hmiss hnd hm hk
  have hw : (makeErroringRootParams up fb ws ps st).1 =
      { id := st.nextId, state := .resolved up, trapCtx := some ⟨ws.route, ps⟩,
        props := erroringProps fb up.content } := by
    unfold makeErroringRootParams; rw [hmiss]
  constructor
  · intro hf
    have hslot := alookup_erroringProps_fallback fb up.content k v hnd hk hf hm
    cases ps with
    | ppr dynamicTracking =>
      have hread :
          readProp (makeErroringRootParams up fb ws (.ppr dynamicTracking) st).1 k =
            .postponed ws.route (describeStringPropertyAccess "rootParams" k)
              dynamicTracking := by
        rw [hw]
        unfold readProp
        simp only [hslot]
      exact ⟨hread, by rw [hread]; rfl, fun x => by rw [hread]; simp⟩
    | legacy =>
      have hread :
          readProp (makeErroringRootParams up fb ws .legacy st).1 k =
            .interrupted (describeStringPropertyAccess "rootParams" k) ws.route := by
        rw [hw]
        unfold readProp
        simp only [hslot]
      exact ⟨hread, by rw [hread]; rfl, fun x => by rw [hread]; simp⟩
  · intro hf
    have hslot := alookup_erroringProps_plain fb up.content k v hnd hk hf hm
    have hread : readProp (makeErroringRootParams up fb ws ps st).1 k = .value (some v) := by
      rw [hw]
      unfold readProp
      simp only [hslot]
    exact ⟨hread, by rw [hread]; rfl⟩

/-- Witness for C7 on `mixedParams` under a ppr prerender store: reading the
placeholder key `slug` postpones with the path description and one
invocation; reading the concrete key `lang` yields its value with zero
invocations. -/
theorem c7_per_property_trap_witness :
    readProp (makeErroringRootParams mixedParams ["slug"] mixedWs (.ppr 3) emptySt).1 "slug" =
      .postponed "/[lang]/[slug]" "`rootParams.slug`" 3 ∧
    invocations
      (readProp (makeErroringRootParams mixedParams ["slug"] mixedWs (.ppr 3) emptySt).1
        "slug") = 1 ∧
    readProp (makeErroringRootParams mixedParams ["slug"] mixedWs (.ppr 3) emptySt).1 "lang" =
      .value (some (.s "en")) ∧
    invocations
      (readProp (makeErroringRootParams mixedParams ["slug"] mixedWs (.ppr 3) emptySt).1
        "lang") = 0 :=
  ⟨((c7_per_property_trap mixedParams ["slug"] mixedWs (.ppr 3) emptySt "slug"
      (.s "placeholder") (by rfl) (by decide) (by decide) (by decide)).1 (by decide)).1,
   ((c7_per_property_trap mixedParams ["slug"] mixedWs (.ppr 3) emptySt "slug"
      (.s "placeholder") (by rfl) (by decide) (by decide) (by decide)).1 (by decide)).2.1,
   ((c7_per_property_trap mixedParams ["slug"] mixedWs (.ppr 3) emptySt "lang"
      (.s "en") (by rfl) (by decide) (by decide) (by decide)).2 (by decide)).1,
   ((c7_per_property_trap mixedParams ["slug"] mixedWs (.ppr 3) emptySt "lang"
      (.s "en") (by rfl) (by decide) (by decide) (by decide)).2 (by decide)).2⟩

/-- C8: Trapped → Resolved state machine — writing a value to a trapped
placeholder key replaces the accessor with an ordinary value slot holding
the written value, after which reads return that value with zero
suspend/abort invocations; a value slot never transitions back to trapped
under any sequence of reads and writes; a trapped slot stays trapped under
reads alone, and each read of a trapped key on an erroring wrapper performs
one interruption invocation (idempotent, not one-shot). -/
theorem c8_trapped_to_resolved :
    ∀ (w : Wrapper) (k : String) (v : PValue) (ops : List PropOp) (ctx : TrapCtx),
      alookup k w.props = some .trapped →
      w.trapCtx = some ctx →
      (alookup k (writeProp w k v).props = some (.value v) ∧
       readProp (writeProp w k v) k = .value (some v) ∧
       invocations (readProp (writeProp w k v) k) = 0) ∧
      (∃ u, applySlotOps (.value v) ops = .value u) ∧
      ((∀ op ∈ ops, op = .read) → applySlotOps .trapped ops = .trapped) ∧
      invocations (readProp w k) = 1 := by
  intro w k v ops ctx htr hctx
  have hset := alookup_setSlot_self k v w.props
  have hreadw : readProp (writeProp w k v) k = .value (some v) := by
    unfold readProp writeProp
    simp only [hset]
  refine ⟨⟨hset, hreadw, by rw [hreadw]; rfl⟩, applySlotOps_value v ops,
    applySlotOps_reads _ ops, ?_⟩
  obtain ⟨route, store⟩ := ctx
  unfold readProp
  rw [htr, hctx]
  cases store <;> rfl

/-- Witness for C8 on the erroring wrapper `errW` for `mixedParams`:
`slug` is trapped; writing `"v2"` downgrades it so the next read returns
the written value with zero invocations, while before the write each read
performs one invocation. -/
theorem c8_trapped_to_resolved_witness :
    alookup "slug" errW.props = some PropSlot.trapped ∧
    readProp (writeProp errW "slug" (.s "v2")) "slug" = .value (some (.s "v2")) ∧
    invocations (readProp (writeProp errW "slug" (.s "v2")) "slug") = 0 ∧
    invocations (readProp errW "slug") = 1 :=
  ⟨by rfl,
   (c8_trapped_to_resolved errW "slug" (.s "v2") [] ⟨"/[lang]/[slug]", .ppr 3⟩
     (by rfl) (by rfl)).1.2.1,
   (c8_trapped_to_resolved errW "slug" (.s "v2") [] ⟨"/[lang]/[slug]", .ppr 3⟩
     (by rfl) (by rfl)).1.2.2,
   (c8_trapped_to_resolved errW "slug" (.s "v2") [] ⟨"/[lang]/[slug]", .ppr 3⟩
     (by rfl) (by rfl)).2.2.2⟩

/-- C10: reserved member names are never shadowed — on first resolution,
both the untracked and the erroring builder install no own property (no
plain value, no accessor) under any well-known reserved name, and copy
every non-reserved key of the params object onto the wrapper (as a plain
value for the untracked builder; as a trap for placeholder keys and a
plain value otherwise for the erroring builder). -/
theorem c10_reserved_names_not_shadowed :
    ∀ (up : ParamsObj) (fb : FallbackKeys) (ws : WorkStore) (ps : PrerenderStorePPRorLegacy)
      (st : St) (r k : String) (v : PValue),
      alookup up.id st.cache = none →
      (up.content.map Prod.fst).Nodup →
      (r ∈ wellKnownProperties →
        alookup r ((makeUntrackedRootParams up st).1).props = none ∧
        alookup r ((makeErroringRootParams up fb ws ps st).1).props = none) ∧
      ((k, v) ∈ up.content → k ∉ wellKnownProperties →
        alookup k ((makeUntrackedRootParams up st).1).props = some (.value v) ∧
        alookup k ((makeErroringRootParams up fb ws ps st).1).props =
          some (if k ∈ fb then .trapped else .value v)) := by
  intro up fb ws ps st r k v hmiss hnd
  have hwu : (makeUntrackedRootParams up st).1 =
      { id := st.nextId, state := .resolved up, trapCtx := none,
        props := untrackedProps up.content } := by
    unfold makeUntrackedRootParams; rw [hmiss]
  have hwe : (makeErroringRootParams up fb ws ps st).1 =
      { id := st.nextId, state := .resolved up, trapCtx := some ⟨ws.route, ps⟩,
        props := erroringProps fb up.content } := by
    unfold makeErroringRootParams; rw [hmiss]
  constructor
  · intro hr
    rw [hwu, hwe]
    exact ⟨alookup_untrackedProps_wellKnown up.content r hr,
           alookup_erroringProps_wellKnown fb up.content r hr⟩
  · intro hm hk
    rw [hwu, hwe]
    refine ⟨alookup_untrackedProps up.content k v hnd hk hm, ?_⟩
    by_cases hf : k ∈ fb
    · rw [if_pos hf]
      exact alookup_erroringProps_fallback fb up.content k v hnd hk hf hm
    · rw [if_neg hf]
      exact alookup_erroringProps_plain fb up.content k v hnd hk hf hm

/-- Witness for C10 on `mixedParams`: the reserved name `then` has no own
property on either wrapper, while the non-reserved keys `lang` and `slug`
are copied (value and trap respectively). -/
theorem c10_reserved_names_not_shadowed_witness :
    ("then" : String) ∈ wellKnownProperties ∧
    alookup "then" ((makeUntrackedRootParams mixedParams emptySt).1).props = none ∧
    alookup "then"
      ((makeErroringRootParams mixedParams ["slug"] mixedWs (.ppr 3) emptySt).1).props = none ∧
    alookup "lang" ((makeUntrackedRootParams mixedParams emptySt).1).props =
      some (.value (.s "en")) ∧
    alookup "slug"
      ((makeErroringRootParams mixedParams ["slug"] mixedWs (.ppr 3) emptySt).1).props =
      some PropSlot.trapped :=
  ⟨by decide,
   ((c10_reserved_names_not_shadowed mixedParams ["slug"] mixedWs (.ppr 3) emptySt
      "then" "lang" (.s "en") (by rfl) (by decide)).1 (by decide)).1,
   ((c10_reserved_names_not_shadowed mixedParams ["slug"] mixedWs (.ppr 3) emptySt
      "then" "lang" (.s "en") (by rfl) (by decide)).1 (by decide)).2,
   ((c10_reserved_names_not_shadowed mixedParams ["slug"] mixedWs (.ppr 3) emptySt
      "then" "lang" (.s "en") (by rfl) (by decide)).2 (by decide) (by decide)).1,
   ((c10_reserved_names_not_shadowed mixedParams ["slug"] mixedWs (.ppr 3) emptySt
      "then" "slug" (.s "placeholder") (by rfl) (by decide)).2 (by decide) (by decide)).2⟩
